import Mathlib

/-!
Shallow embedding of `Board Outline Generator/board_outline_generator.py`,
a KiCAD action plugin that draws a (rounded-)rectangular board outline on
the Edge.Cuts layer and places mounting-hole footprints.

Modelling conventions:
* Python floats are embedded as real numbers (`ℝ`); all coordinates are in
  millimetres.  The host-side conversion `mm_to_nm(mm) = int(mm * 1e6)`
  wraps every coordinate uniformly on its way into the host API and is not
  part of the geometry itself, so shapes are recorded at the mm level.
* `board.Add(...)` appends a shape or footprint to the in-memory board
  document; the board is embedded as lists of shapes and footprints, and
  each creator function returns the updated board.
* Dialog text fields are embedded post-parse: `float(ctrl.GetValue())`
  either yields a number or raises `ValueError`, so each field is an
  `Option ℝ` (`none` = the parse raised).  Likewise each
  `MountingHoleEntry.get_position()` result is an `Option (ℝ × ℝ)`.
* The Edge.Cuts layer id and the 0.1 mm stroke width are identical on
  every emitted shape and are omitted from the shape model.
-/

namespace BoardOutlineGenerator

/-- Constant `BOARD_OFFSET_X = 25.0` (mm), board placement offset from sheet origin. -/
def BOARD_OFFSET_X : ℝ := 25

/-- Constant `BOARD_OFFSET_Y = 25.0` (mm). -/
def BOARD_OFFSET_Y : ℝ := 25

/-- A shape added to the board on the Edge.Cuts layer: either a straight
segment with start/end points, or an arc given by its three defining points
(start, mid, end) as passed to `SetArcGeometry`. -/
inductive Shape where
  | segment (s e : ℝ × ℝ)
  | arc (s m e : ℝ × ℝ)

/-- Whether a shape is an arc. -/
def Shape.isArc : Shape → Bool
  | .arc _ _ _ => true
  | .segment _ _ => false

/-- Whether a shape is a straight segment. -/
def Shape.isSegment : Shape → Bool
  | .arc _ _ _ => false
  | .segment _ _ => true

/-- Shape `pcbnew.PAD_SHAPE_CIRCLE` is the only pad shape the plugin uses. -/
inductive PadShape where
  | circle

/-- Pad attribute `pcbnew.PAD_ATTRIB_NPTH`: non-plated through hole. -/
inductive PadAttrib where
  | npth

/-- Drill shape `pcbnew.PAD_DRILL_SHAPE_CIRCLE`. -/
inductive PadDrillShape where
  | circle

/-- The fields of a `pcbnew.PAD` that `create_mounting_hole` sets. -/
structure PAD where
  number : String
  shape : PadShape
  attrib : PadAttrib
  drillShape : PadDrillShape
  drillSize : ℝ × ℝ
  size : ℝ × ℝ
  position : ℝ × ℝ
  localSolderMaskMargin : ℝ

/-- The fields of a `pcbnew.FOOTPRINT` that `create_mounting_hole` sets. -/
structure FOOTPRINT where
  reference : String
  value : String
  pads : List PAD
  position : ℝ × ℝ

/-- The in-memory board document: the shapes and footprints added so far
(`board.Add` appends; `board.GetFootprints()` reads `footprints`). -/
structure Board where
  shapes : List Shape
  footprints : List FOOTPRINT

/-- Python `math.radians`: degrees to radians. -/
noncomputable def radians (d : ℝ) : ℝ := d * Real.pi / 180

/-- The nested `create_arc(center, start_angle_deg, end_angle_deg)` of
`create_board_outline` (it closes over the corner radius `r`): angles are
converted to radians, the mid angle is their average, and each defining
point is `(cx + r*cos a, cy - r*sin a)` — the sin component is negated
because KiCAD's Y axis increases downward. -/
noncomputable def create_arc (r : ℝ) (center : ℝ × ℝ) (start_angle_deg end_angle_deg : ℝ) :
    Shape :=
  let cx := center.1
  let cy := center.2
  let start_angle := radians start_angle_deg
  let end_angle := radians end_angle_deg
  let mid_angle := (start_angle + end_angle) / 2
  let start_pt := (cx + r * Real.cos start_angle, cy - r * Real.sin start_angle)
  let mid_pt := (cx + r * Real.cos mid_angle, cy - r * Real.sin mid_angle)
  let end_pt := (cx + r * Real.cos end_angle, cy - r * Real.sin end_angle)
  Shape.arc start_pt mid_pt end_pt

/-- The shapes `create_board_outline(board, width, height, corner_radius)`
adds to the board, in emission order.  `r == 0` draws the plain rectangle
from the 5-point closed polyline; otherwise four edges inset by `r` are
drawn, followed by the four corner arcs (`corners[0]`..`corners[3]` with
their angle ranges, exactly as in the source). -/
noncomputable def outline_shapes (width height corner_radius : ℝ) : List Shape :=
  let ox := BOARD_OFFSET_X
  let oy := BOARD_OFFSET_Y
  let r := corner_radius
  let w := width
  let h := height
  if r = 0 then
    let points : List (ℝ × ℝ) :=
      [(ox, oy), (ox + w, oy), (ox + w, oy + h), (ox, oy + h), (ox, oy)]
    (points.zip points.tail).map fun pq => Shape.segment pq.1 pq.2
  else
    let c0 : ℝ × ℝ := (ox + r, oy + r)              -- corners[0], top-left
    let c1 : ℝ × ℝ := (ox + w - r, oy + r)          -- corners[1], top-right
    let c2 : ℝ × ℝ := (ox + w - r, oy + h - r)      -- corners[2], bottom-right
    let c3 : ℝ × ℝ := (ox + r, oy + h - r)          -- corners[3], bottom-left
    [Shape.segment (ox + r, oy) (ox + w - r, oy),             -- top edge
     Shape.segment (ox + w, oy + r) (ox + w, oy + h - r),     -- right edge
     Shape.segment (ox + w - r, oy + h) (ox + r, oy + h),     -- bottom edge
     Shape.segment (ox, oy + h - r) (ox, oy + r),             -- left edge
     create_arc r c0 90 180,
     create_arc r c1 0 90,
     create_arc r c2 270 360,
     create_arc r c3 180 270]

/-- Function `create_board_outline`: appends the outline shapes to the board. -/
noncomputable def create_board_outline (board : Board) (width height corner_radius : ℝ) :
    Board :=
  { board with shapes := board.shapes ++ outline_shapes width height corner_radius }

/-- The reference-prefix string `"H"` used for mounting-hole footprints. -/
def hPat : String := "H"

/-- The pad built inside `create_mounting_hole`: circular NPTH pad, drill
size and copper size both set to the hole diameter, positioned at the
footprint origin, with the annular ring used as local solder-mask margin. -/
def mounting_pad (hole_diameter annular_ring : ℝ) : PAD :=
  { number := "1"
    shape := PadShape.circle
    attrib := PadAttrib.npth
    drillShape := PadDrillShape.circle
    drillSize := (hole_diameter, hole_diameter)
    size := (hole_diameter, hole_diameter)
    position := (0, 0)
    localSolderMaskMargin := annular_ring }

/-- Function `create_mounting_hole(board, x, y, hole_diameter, annular_ring)`: builds
a one-pad footprint and appends it to the board.  `pad_diameter` is computed
exactly as in the source and, as in the source, is not used afterwards. -/
noncomputable def create_mounting_hole (board : Board) (x y hole_diameter annular_ring : ℝ) :
    Board :=
  let _pad_diameter := hole_diameter + 2 * annular_ring
  let footprint : FOOTPRINT :=
    { reference :=
        hPat ++ toString
          ((board.footprints.filter fun f => String.startsWith f.reference hPat).length + 1)
      value := "MountingHole"
      pads := [mounting_pad hole_diameter annular_ring]
      position := (BOARD_OFFSET_X + x, BOARD_OFFSET_Y + y) }
  { board with footprints := board.footprints ++ [footprint] }

/-- The raw dialog state as seen by `get_parameters`: each text field after
the `float(...)` parse (`none` when the parse raised `ValueError`), and the
ordered `entry.get_position()` results of the hole entries. -/
structure DialogInput where
  width : Option ℝ
  height : Option ℝ
  corner_radius : Option ℝ
  hole_diameter : Option ℝ
  annular_ring : Option ℝ
  hole_positions : List (Option (ℝ × ℝ))

/-- The validated parameter dict returned by `get_parameters`. -/
structure Params where
  width : ℝ
  height : ℝ
  corner_radius : ℝ
  hole_diameter : ℝ
  annular_ring : ℝ
  hole_positions : List (ℝ × ℝ)

/-- The position-collection loop of `get_parameters`: raises (returns
`none`) at the first entry whose position failed to parse. -/
def collectPositions : List (Option (ℝ × ℝ)) → Option (List (ℝ × ℝ))
  | [] => some []
  | none :: _ => none
  | some p :: rest => (collectPositions rest).map (p :: ·)

/-- Method `BoardOutlineDialog.get_parameters`: parses the five numeric fields and
the hole positions, then validates in source order (positive dimensions,
non-negative radius, radius at most half the smaller dimension, positive
hole diameter); any failure is caught and yields `None`. -/
noncomputable def get_parameters (input : DialogInput) : Option Params :=
  match input.width, input.height, input.corner_radius,
        input.hole_diameter, input.annular_ring with
  | some width, some height, some corner_radius, some hole_diameter, some annular_ring =>
    match collectPositions input.hole_positions with
    | none => none
    | some hole_positions =>
      if width ≤ 0 ∨ height ≤ 0 then none
      else if corner_radius < 0 then none
      else if corner_radius > min width height / 2 then none
      else if hole_diameter ≤ 0 then none
      else some ⟨width, height, corner_radius, hole_diameter, annular_ring, hole_positions⟩
  | _, _, _, _, _ => none

/-- Outcome of `dlg.ShowModal()`: the user pressed Generate (`ok`, with the
dialog contents) or cancelled. -/
inductive DialogResult where
  | ok (input : DialogInput)
  | cancel

/-- Method `BoardOutlinePlugin.Run`: on OK, collect and validate parameters; when
they validate, draw the outline and then one mounting hole per position, in
list order.  Otherwise the board is untouched. -/
noncomputable def Run (board : Board) (result : DialogResult) : Board :=
  match result with
  | DialogResult.cancel => board
  | DialogResult.ok input =>
    match get_parameters input with
    | none => board
    | some params =>
      let board1 := create_board_outline board
        params.width params.height params.corner_radius
      params.hole_positions.foldl
        (fun b p => create_mounting_hole b p.1 p.2 params.hole_diameter params.annular_ring)
        board1

/-! ### Derived notions used to state the claims -/

/-- The point at `a` degrees on the circle of radius `r` centred at `c`, in
the plugin's coordinate frame (angle counterclockwise, Y down): the spec's
formula `(cx + r*cos a, cy - r*sin a)`. -/
noncomputable def arcPoint (c : ℝ × ℝ) (r a : ℝ) : ℝ × ℝ :=
  (c.1 + r * Real.cos (radians a), c.2 - r * Real.sin (radians a))

/-- Start and end point of a shape when it is a segment. -/
def segEnds : Shape → List (ℝ × ℝ)
  | Shape.segment s e => [s, e]
  | Shape.arc _ _ _ => []

/-- Start and end point of a shape when it is an arc. -/
def arcEnds : Shape → List (ℝ × ℝ)
  | Shape.segment _ _ => []
  | Shape.arc s _ e => [s, e]

/-- Concatenation of `f` over a list of shapes. -/
def shapeEnds (f : Shape → List (ℝ × ℝ)) : List Shape → List (ℝ × ℝ)
  | [] => []
  | sh :: rest => f sh ++ shapeEnds f rest

/-- Endpoints of the straight edges of an outline, in emission order. -/
noncomputable def outlineSegEnds (w h r : ℝ) : List (ℝ × ℝ) :=
  shapeEnds segEnds (outline_shapes w h r)

/-- Start/end points of the corner arcs of an outline, in emission order. -/
noncomputable def outlineArcEnds (w h r : ℝ) : List (ℝ × ℝ) :=
  shapeEnds arcEnds (outline_shapes w h r)

/-- Three points of the plane are collinear iff this cross product of the
two difference vectors vanishes. -/
def collinear3 (p q s : ℝ × ℝ) : Prop :=
  (q.1 - p.1) * (s.2 - p.2) - (q.2 - p.2) * (s.1 - p.1) = 0

/-- What C6 asserts of each created mounting-hole footprint: positioned at
the board offset plus the requested position, with exactly one pad that is
circular, non-plated, and drilled at the requested hole diameter. -/
def IsMountingHoleFootprint (hole_diameter : ℝ) (p : ℝ × ℝ) (fp : FOOTPRINT) : Prop :=
  fp.position = (BOARD_OFFSET_X + p.1, BOARD_OFFSET_Y + p.2) ∧
  ∃ pd, fp.pads = [pd] ∧ pd.shape = PadShape.circle ∧ pd.attrib = PadAttrib.npth ∧
    pd.drillShape = PadDrillShape.circle ∧
    pd.drillSize = (hole_diameter, hole_diameter)

/-! ### Trigonometric evaluation helpers -/

theorem radians_avg (a b : ℝ) : (radians a + radians b) / 2 = radians ((a + b) / 2) := by
  unfold radians; ring

theorem cos_radians_0 : Real.cos (radians 0) = 1 := by
  have h : radians 0 = 0 := by unfold radians; ring
  rw [h, Real.cos_zero]

theorem sin_radians_0 : Real.sin (radians 0) = 0 := by
  have h : radians 0 = 0 := by unfold radians; ring
  rw [h, Real.sin_zero]

theorem cos_radians_45 : Real.cos (radians 45) = Real.sqrt 2 / 2 := by
  have h : radians 45 = Real.pi / 4 := by unfold radians; ring
  rw [h, Real.cos_pi_div_four]

theorem sin_radians_45 : Real.sin (radians 45) = Real.sqrt 2 / 2 := by
  have h : radians 45 = Real.pi / 4 := by unfold radians; ring
  rw [h, Real.sin_pi_div_four]

theorem cos_radians_90 : Real.cos (radians 90) = 0 := by
  have h : radians 90 = Real.pi / 2 := by unfold radians; ring
  rw [h, Real.cos_pi_div_two]

theorem sin_radians_90 : Real.sin (radians 90) = 1 := by
  have h : radians 90 = Real.pi / 2 := by unfold radians; ring
  rw [h, Real.sin_pi_div_two]

theorem cos_radians_135 : Real.cos (radians 135) = -(Real.sqrt 2 / 2) := by
  have h : radians 135 = Real.pi - Real.pi / 4 := by unfold radians; ring
  rw [h, Real.cos_pi_sub, Real.cos_pi_div_four]

theorem sin_radians_135 : Real.sin (radians 135) = Real.sqrt 2 / 2 := by
  have h : radians 135 = Real.pi - Real.pi / 4 := by unfold radians; ring
  rw [h, Real.sin_pi_sub, Real.sin_pi_div_four]

theorem cos_radians_180 : Real.cos (radians 180) = -1 := by
  have h : radians 180 = Real.pi := by unfold radians; ring
  rw [h, Real.cos_pi]

theorem sin_radians_180 : Real.sin (radians 180) = 0 := by
  have h : radians 180 = Real.pi := by unfold radians; ring
  rw [h, Real.sin_pi]

theorem cos_radians_225 : Real.cos (radians 225) = -(Real.sqrt 2 / 2) := by
  have h : radians 225 = Real.pi / 4 + Real.pi := by unfold radians; ring
  rw [h, Real.cos_add, Real.cos_pi, Real.sin_pi, Real.cos_pi_div_four]; ring

theorem sin_radians_225 : Real.sin (radians 225) = -(Real.sqrt 2 / 2) := by
  have h : radians 225 = Real.pi / 4 + Real.pi := by unfold radians; ring
  rw [h, Real.sin_add, Real.cos_pi, Real.sin_pi, Real.sin_pi_div_four]; ring

theorem cos_radians_270 : Real.cos (radians 270) = 0 := by
  have h : radians 270 = Real.pi / 2 + Real.pi := by unfold radians; ring
  rw [h, Real.cos_add, Real.cos_pi, Real.sin_pi, Real.cos_pi_div_two]; ring

theorem sin_radians_270 : Real.sin (radians 270) = -1 := by
  have h : radians 270 = Real.pi / 2 + Real.pi := by unfold radians; ring
  rw [h, Real.sin_add, Real.cos_pi, Real.sin_pi, Real.sin_pi_div_two]; ring

theorem cos_radians_315 : Real.cos (radians 315) = Real.sqrt 2 / 2 := by
  have h : radians 315 = 2 * Real.pi - Real.pi / 4 := by unfold radians; ring
  rw [h, Real.cos_sub, Real.cos_two_pi, Real.sin_two_pi, Real.cos_pi_div_four]; ring

theorem sin_radians_315 : Real.sin (radians 315) = -(Real.sqrt 2 / 2) := by
  have h : radians 315 = 2 * Real.pi - Real.pi / 4 := by unfold radians; ring
  rw [h, Real.sin_sub, Real.cos_two_pi, Real.sin_two_pi, Real.sin_pi_div_four]; ring

theorem cos_radians_360 : Real.cos (radians 360) = 1 := by
  have h : radians 360 = 2 * Real.pi := by unfold radians; ring
  rw [h, Real.cos_two_pi]

theorem sin_radians_360 : Real.sin (radians 360) = 0 := by
  have h : radians 360 = 2 * Real.pi := by unfold radians; ring
  rw [h, Real.sin_two_pi]

theorem one_lt_sqrt_two : 1 < Real.sqrt 2 := by
  nlinarith [Real.sq_sqrt (by norm_num : (0:ℝ) ≤ 2), Real.sqrt_nonneg 2]

theorem sqrt_two_lt_two : Real.sqrt 2 < 2 := by
  nlinarith [Real.sq_sqrt (by norm_num : (0:ℝ) ≤ 2), Real.sqrt_nonneg 2]

/-- Fully evaluated form of the rounded-rectangle branch of
`outline_shapes`: the four inset edges followed by the four corner arcs
with their trigonometry computed out (`k` abbreviates `r * (√2 / 2)`). -/
theorem outline_shapes_eval (w h r : ℝ) (hr : r ≠ 0) :
    outline_shapes w h r =
      [Shape.segment (25 + r, 25) (25 + w - r, 25),
       Shape.segment (25 + w, 25 + r) (25 + w, 25 + h - r),
       Shape.segment (25 + w - r, 25 + h) (25 + r, 25 + h),
       Shape.segment (25, 25 + h - r) (25, 25 + r),
       Shape.arc (25 + r, 25)
         (25 + r - r * (Real.sqrt 2 / 2), 25 + r - r * (Real.sqrt 2 / 2))
         (25, 25 + r),
       Shape.arc (25 + w, 25 + r)
         (25 + w - r + r * (Real.sqrt 2 / 2), 25 + r - r * (Real.sqrt 2 / 2))
         (25 + w - r, 25),
       Shape.arc (25 + w - r, 25 + h)
         (25 + w - r + r * (Real.sqrt 2 / 2), 25 + h - r + r * (Real.sqrt 2 / 2))
         (25 + w, 25 + h - r),
       Shape.arc (25, 25 + h - r)
         (25 + r - r * (Real.sqrt 2 / 2), 25 + h - r + r * (Real.sqrt 2 / 2))
         (25 + r, 25 + h)] := by
  simp only [outline_shapes, BOARD_OFFSET_X, BOARD_OFFSET_Y, if_neg hr, create_arc,
    radians_avg]
  norm_num [cos_radians_0, sin_radians_0, cos_radians_45, sin_radians_45,
    cos_radians_90, sin_radians_90, cos_radians_135, sin_radians_135,
    cos_radians_180, sin_radians_180, cos_radians_225, sin_radians_225,
    cos_radians_270, sin_radians_270, cos_radians_315, sin_radians_315,
    cos_radians_360, sin_radians_360, Shape.arc.injEq, Prod.mk.injEq]
  ring

/-! ### Claims -/

/-- Claim C2: for every corner-arc with centre `(cx, cy)`, radius `r` and
angles `start_angle`/`end_angle` in degrees, each of the arc's three
defining points at angle `a` (start, angular midpoint `(start+end)/2`,
end) is `(cx + r*cos a, cy - r*sin a)`: the angle is counterclockwise but
the vertical component is negated because the Y axis grows downward. -/
theorem create_arc_defining_points (cx cy r s e : ℝ) :
    create_arc r (cx, cy) s e =
      Shape.arc (arcPoint (cx, cy) r s) (arcPoint (cx, cy) r ((s + e) / 2))
        (arcPoint (cx, cy) r e) := by
  simp only [create_arc, arcPoint, radians_avg]

/-- Claim C1: for `w, h > 0` and `0 < r ≤ min w h / 2`, the outline contains
exactly four arcs; their defining points are the points of circles of radius
`r` centred at `(ox+r, oy+r)`, `(ox+w-r, oy+r)`, `(ox+w-r, oy+h-r)`,
`(ox+r, oy+h-r)` taken at angles 90°/135°/180°, 0°/45°/90°, 270°/315°/360°
and 180°/225°/270° respectively, i.e. the four quarter-circle sweeps
90°→180°, 0°→90°, 270°→360°, 180°→270°. -/
theorem outline_corner_arcs (w h r : ℝ) (hw : 0 < w) (hh : 0 < h) (hr : 0 < r)
    (hr2 : r ≤ min w h / 2) :
    (outline_shapes w h r).filter Shape.isArc =
      [Shape.arc (arcPoint (BOARD_OFFSET_X + r, BOARD_OFFSET_Y + r) r 90)
         (arcPoint (BOARD_OFFSET_X + r, BOARD_OFFSET_Y + r) r 135)
         (arcPoint (BOARD_OFFSET_X + r, BOARD_OFFSET_Y + r) r 180),
       Shape.arc (arcPoint (BOARD_OFFSET_X + w - r, BOARD_OFFSET_Y + r) r 0)
         (arcPoint (BOARD_OFFSET_X + w - r, BOARD_OFFSET_Y + r) r 45)
         (arcPoint (BOARD_OFFSET_X + w - r, BOARD_OFFSET_Y + r) r 90),
       Shape.arc (arcPoint (BOARD_OFFSET_X + w - r, BOARD_OFFSET_Y + h - r) r 270)
         (arcPoint (BOARD_OFFSET_X + w - r, BOARD_OFFSET_Y + h - r) r 315)
         (arcPoint (BOARD_OFFSET_X + w - r, BOARD_OFFSET_Y + h - r) r 360),
       Shape.arc (arcPoint (BOARD_OFFSET_X + r, BOARD_OFFSET_Y + h - r) r 180)
         (arcPoint (BOARD_OFFSET_X + r, BOARD_OFFSET_Y + h - r) r 225)
         (arcPoint (BOARD_OFFSET_X + r, BOARD_OFFSET_Y + h - r) r 270)] := by
  simp only [outline_shapes, if_neg hr.ne', create_arc, arcPoint, radians_avg,
    List.filter, Shape.isArc]
  norm_num

theorem outline_corner_arcs_witness :
    (0:ℝ) < 10 ∧ (0:ℝ) < 8 ∧ (0:ℝ) < 2 ∧ (2:ℝ) ≤ min 10 8 / 2 ∧
    (outline_shapes 10 8 2).filter Shape.isArc =
      [Shape.arc (arcPoint (BOARD_OFFSET_X + 2, BOARD_OFFSET_Y + 2) 2 90)
         (arcPoint (BOARD_OFFSET_X + 2, BOARD_OFFSET_Y + 2) 2 135)
         (arcPoint (BOARD_OFFSET_X + 2, BOARD_OFFSET_Y + 2) 2 180),
       Shape.arc (arcPoint (BOARD_OFFSET_X + 10 - 2, BOARD_OFFSET_Y + 2) 2 0)
         (arcPoint (BOARD_OFFSET_X + 10 - 2, BOARD_OFFSET_Y + 2) 2 45)
         (arcPoint (BOARD_OFFSET_X + 10 - 2, BOARD_OFFSET_Y + 2) 2 90),
       Shape.arc (arcPoint (BOARD_OFFSET_X + 10 - 2, BOARD_OFFSET_Y + 8 - 2) 2 270)
         (arcPoint (BOARD_OFFSET_X + 10 - 2, BOARD_OFFSET_Y + 8 - 2) 2 315)
         (arcPoint (BOARD_OFFSET_X + 10 - 2, BOARD_OFFSET_Y + 8 - 2) 2 360),
       Shape.arc (arcPoint (BOARD_OFFSET_X + 2, BOARD_OFFSET_Y + 8 - 2) 2 180)
         (arcPoint (BOARD_OFFSET_X + 2, BOARD_OFFSET_Y + 8 - 2) 2 225)
         (arcPoint (BOARD_OFFSET_X + 2, BOARD_OFFSET_Y + 8 - 2) 2 270)] :=
  ⟨by norm_num, by norm_num, by norm_num, by norm_num,
   outline_corner_arcs 10 8 2 (by norm_num) (by norm_num) (by norm_num) (by norm_num)⟩

/-- Claim C4: for `w, h > 0` and `corner_radius = 0`, the outline is exactly
four straight segments tracing the plain rectangle with corners `(ox, oy)`,
`(ox+w, oy)`, `(ox+w, oy+h)`, `(ox, oy+h)`, and contains no arcs. -/
theorem outline_rect_when_radius_zero (w h : ℝ) (hw : 0 < w) (hh : 0 < h) :
    outline_shapes w h 0 =
      [Shape.segment (BOARD_OFFSET_X, BOARD_OFFSET_Y)
         (BOARD_OFFSET_X + w, BOARD_OFFSET_Y),
       Shape.segment (BOARD_OFFSET_X + w, BOARD_OFFSET_Y)
         (BOARD_OFFSET_X + w, BOARD_OFFSET_Y + h),
       Shape.segment (BOARD_OFFSET_X + w, BOARD_OFFSET_Y + h)
         (BOARD_OFFSET_X, BOARD_OFFSET_Y + h),
       Shape.segment (BOARD_OFFSET_X, BOARD_OFFSET_Y + h)
         (BOARD_OFFSET_X, BOARD_OFFSET_Y)] ∧
    (outline_shapes w h 0).filter Shape.isArc = [] := by
  constructor
  · simp [outline_shapes, List.zip]
  · simp [outline_shapes, List.zip, Shape.isArc]

theorem outline_rect_when_radius_zero_witness :
    (0:ℝ) < 10 ∧ (0:ℝ) < 8 ∧
    (outline_shapes 10 8 0 =
      [Shape.segment (BOARD_OFFSET_X, BOARD_OFFSET_Y)
         (BOARD_OFFSET_X + 10, BOARD_OFFSET_Y),
       Shape.segment (BOARD_OFFSET_X + 10, BOARD_OFFSET_Y)
         (BOARD_OFFSET_X + 10, BOARD_OFFSET_Y + 8),
       Shape.segment (BOARD_OFFSET_X + 10, BOARD_OFFSET_Y + 8)
         (BOARD_OFFSET_X, BOARD_OFFSET_Y + 8),
       Shape.segment (BOARD_OFFSET_X, BOARD_OFFSET_Y + 8)
         (BOARD_OFFSET_X, BOARD_OFFSET_Y)] ∧
    (outline_shapes 10 8 0).filter Shape.isArc = []) :=
  ⟨by norm_num, by norm_num, outline_rect_when_radius_zero 10 8 (by norm_num) (by norm_num)⟩

/-- Claim C5: for `0 < r ≤ min w h / 2`, the outline contains exactly four
straight edges, whose endpoints are the boundary points inset by `r` from
each corner: top `(ox+r, oy)–(ox+w-r, oy)`, right `(ox+w, oy+r)–(ox+w,
oy+h-r)`, bottom `(ox+w-r, oy+h)–(ox+r, oy+h)`, left `(ox, oy+h-r)–(ox,
oy+r)`. -/
theorem outline_inset_edges (w h r : ℝ) (hr : 0 < r) (hr2 : r ≤ min w h / 2) :
    (outline_shapes w h r).filter Shape.isSegment =
      [Shape.segment (BOARD_OFFSET_X + r, BOARD_OFFSET_Y)
         (BOARD_OFFSET_X + w - r, BOARD_OFFSET_Y),
       Shape.segment (BOARD_OFFSET_X + w, BOARD_OFFSET_Y + r)
         (BOARD_OFFSET_X + w, BOARD_OFFSET_Y + h - r),
       Shape.segment (BOARD_OFFSET_X + w - r, BOARD_OFFSET_Y + h)
         (BOARD_OFFSET_X + r, BOARD_OFFSET_Y + h),
       Shape.segment (BOARD_OFFSET_X, BOARD_OFFSET_Y + h - r)
         (BOARD_OFFSET_X, BOARD_OFFSET_Y + r)] := by
  simp only [outline_shapes, if_neg hr.ne', create_arc, List.filter, Shape.isSegment]

theorem outline_inset_edges_witness :
    (0:ℝ) < 2 ∧ (2:ℝ) ≤ min 10 8 / 2 ∧
    (outline_shapes 10 8 2).filter Shape.isSegment =
      [Shape.segment (BOARD_OFFSET_X + 2, BOARD_OFFSET_Y)
         (BOARD_OFFSET_X + 10 - 2, BOARD_OFFSET_Y),
       Shape.segment (BOARD_OFFSET_X + 10, BOARD_OFFSET_Y + 2)
         (BOARD_OFFSET_X + 10, BOARD_OFFSET_Y + 8 - 2),
       Shape.segment (BOARD_OFFSET_X + 10 - 2, BOARD_OFFSET_Y + 8)
         (BOARD_OFFSET_X + 2, BOARD_OFFSET_Y + 8),
       Shape.segment (BOARD_OFFSET_X, BOARD_OFFSET_Y + 8 - 2)
         (BOARD_OFFSET_X, BOARD_OFFSET_Y + 2)] :=
  ⟨by norm_num, by norm_num,
   outline_inset_edges 10 8 2 (by norm_num) (by norm_num)⟩

/-- Claim C3: with all five numeric fields parsed, `get_parameters` returns
the collected parameter set exactly when `width > 0`, `height > 0`,
`0 ≤ corner_radius ≤ min(width, height)/2`, `hole_diameter > 0`, and every
hole position parses; if any such condition fails it returns `none`. -/
theorem get_parameters_spec (w h r d a : ℝ) (ps : List (Option (ℝ × ℝ))) :
    (get_parameters ⟨some w, some h, some r, some d, some a, ps⟩ = none ↔
      collectPositions ps = none ∨ w ≤ 0 ∨ h ≤ 0 ∨ r < 0 ∨ min w h / 2 < r ∨ d ≤ 0) ∧
    (∀ l, collectPositions ps = some l → 0 < w → 0 < h → 0 ≤ r →
      r ≤ min w h / 2 → 0 < d →
      get_parameters ⟨some w, some h, some r, some d, some a, ps⟩ =
        some ⟨w, h, r, d, a, l⟩) := by
  unfold get_parameters
  cases hcp : collectPositions ps with
  | none => simp [hcp]
  | some l =>
    simp only [hcp]
    constructor
    · split_ifs with h1 h2 h3 h4 <;> simp <;>
        first
        | tauto
        | (push_neg at *; tauto)
    · intro l' hl' hw hh hr0 hr2 hd
      obtain rfl : l = l' := by simpa using hl'
      have g1 : ¬ (w ≤ 0 ∨ h ≤ 0) := by push_neg; exact ⟨hw, hh⟩
      rw [if_neg g1, if_neg (not_lt.mpr hr0), if_neg (not_lt.mpr hr2), if_neg (not_le.mpr hd)]

theorem get_parameters_spec_witness :
    collectPositions [some ((3:ℝ), (3:ℝ))] = some [(3, 3)] ∧ (0:ℝ) < 10 ∧ (0:ℝ) < 8 ∧
    (0:ℝ) ≤ 2 ∧ (2:ℝ) ≤ min 10 8 / 2 ∧ (0:ℝ) < 3 ∧
    get_parameters ⟨some 10, some 8, some 2, some 3, some 1, [some (3, 3)]⟩ =
      some ⟨10, 8, 2, 3, 1, [(3, 3)]⟩ :=
  ⟨rfl, by norm_num, by norm_num, by norm_num, by norm_num, by norm_num,
   (get_parameters_spec 10 8 2 3 1 [some (3, 3)]).2 [(3, 3)] rfl (by norm_num)
     (by norm_num) (by norm_num) (by norm_num) (by norm_num)⟩

/-- Claim C7: when validation fails (`get_parameters` yields `none`), `Run`
leaves the board document unchanged — no shapes and no footprints added. -/
theorem run_unchanged_on_invalid (board : Board) (input : DialogInput)
    (hnone : get_parameters input = none) :
    Run board (DialogResult.ok input) = board := by
  simp [Run, hnone]

theorem run_unchanged_on_invalid_witness :
    get_parameters ⟨some (-5), some 8, some 0, some 3, some 1, []⟩ = none ∧
    Run ⟨[], []⟩ (DialogResult.ok ⟨some (-5), some 8, some 0, some 3, some 1, []⟩) =
      ⟨[], []⟩ := by
  have hnone : get_parameters ⟨some (-5), some 8, some 0, some 3, some 1, []⟩ = none := by
    norm_num [get_parameters, collectPositions]
  exact ⟨hnone, run_unchanged_on_invalid _ _ hnone⟩

/-- Claim C9: the created pad's copper size equals the hole diameter (drill
size and pad size are the same value); the annular ring only sets the local
solder-mask margin, and changing it leaves every other pad field unchanged
(the computed `pad_diameter = hole_diameter + 2*annular_ring` is unused). -/
theorem mounting_pad_ignores_annular_ring (d a a' : ℝ) :
    (mounting_pad d a).size = (mounting_pad d a).drillSize ∧
    (mounting_pad d a).size = (d, d) ∧
    (mounting_pad d a).localSolderMaskMargin = a ∧
    mounting_pad d a = { mounting_pad d a' with localSolderMaskMargin := a } :=
  ⟨rfl, rfl, rfl, rfl⟩

theorem create_mounting_hole_appends (b : Board) (x y d a : ℝ) :
    ∃ fp, (create_mounting_hole b x y d a).footprints = b.footprints ++ [fp] ∧
      IsMountingHoleFootprint d (x, y) fp :=
  ⟨_, rfl, rfl, mounting_pad d a, rfl, rfl, rfl, rfl, rfl⟩

theorem foldl_mounting_holes (d a : ℝ) (ps : List (ℝ × ℝ)) :
    ∀ b : Board, ∃ fps,
      (ps.foldl (fun b p => create_mounting_hole b p.1 p.2 d a) b).footprints =
        b.footprints ++ fps ∧
      List.Forall₂ (IsMountingHoleFootprint d) ps fps := by
  induction ps with
  | nil => intro b; exact ⟨[], by simp, List.Forall₂.nil⟩
  | cons p ps ih =>
    intro b
    obtain ⟨fps, h1, h2⟩ := ih (create_mounting_hole b p.1 p.2 d a)
    obtain ⟨fp, h3, h4⟩ := create_mounting_hole_appends b p.1 p.2 d a
    refine ⟨fp :: fps, ?_, List.Forall₂.cons ?_ h2⟩
    · rw [List.foldl_cons, h1, h3]; simp
    · simpa using h4

/-- Claim C6: on a validated parameter set, `Run` adds exactly one
mounting-hole footprint per entry of the ordered hole-position list, in list
order, each positioned at `(BOARD_OFFSET_X + x, BOARD_OFFSET_Y + y)` and
carrying one circular non-plated pad drilled at the requested diameter. -/
theorem run_adds_mounting_holes (board : Board) (input : DialogInput) (params : Params)
    (hp : get_parameters input = some params) :
    ∃ fps, (Run board (DialogResult.ok input)).footprints = board.footprints ++ fps ∧
      List.Forall₂ (IsMountingHoleFootprint params.hole_diameter)
        params.hole_positions fps := by
  obtain ⟨fps, h1, h2⟩ := foldl_mounting_holes params.hole_diameter params.annular_ring
    params.hole_positions
    (create_board_outline board params.width params.height params.corner_radius)
  refine ⟨fps, ?_, h2⟩
  simp only [Run, hp]
  rw [h1]
  simp [create_board_outline]

theorem run_adds_mounting_holes_witness :
    get_parameters ⟨some 10, some 8, some 2, some 3, some 1, [some ((3:ℝ), (3:ℝ))]⟩ =
      some ⟨10, 8, 2, 3, 1, [(3, 3)]⟩ ∧
    ∃ fps, (Run ⟨[], []⟩ (DialogResult.ok
          ⟨some 10, some 8, some 2, some 3, some 1, [some (3, 3)]⟩)).footprints =
        Board.footprints ⟨[], []⟩ ++ fps ∧
      List.Forall₂
        (IsMountingHoleFootprint (Params.hole_diameter ⟨10, 8, 2, 3, 1, [(3, 3)]⟩))
        (Params.hole_positions ⟨10, 8, 2, 3, 1, [(3, 3)]⟩) fps := by
  have hp : get_parameters ⟨some 10, some 8, some 2, some 3, some 1,
      [some ((3:ℝ), (3:ℝ))]⟩ = some ⟨10, 8, 2, 3, 1, [(3, 3)]⟩ := by
    norm_num [get_parameters, collectPositions]
  exact ⟨hp, run_adds_mounting_holes _ _ _ hp⟩

theorem pair_ne_of_fst {x y b c : ℝ} (h : x ≠ y) : ((x, b) : ℝ × ℝ) ≠ (y, c) := by
  intro he
  exact h (congrArg Prod.fst he)

/-- Claim C8: for radius `r > 0`, each corner arc's three defining points
(start, angular midpoint, end) are pairwise distinct and not collinear, so
they determine the 90° arc uniquely. -/
theorem corner_arc_points_determine (w h r : ℝ) (hr : 0 < r) :
    ∀ sh ∈ (outline_shapes w h r).filter Shape.isArc,
      ∃ p q s, sh = Shape.arc p q s ∧ p ≠ q ∧ p ≠ s ∧ q ≠ s ∧ ¬ collinear3 p q s := by
  have h1 := one_lt_sqrt_two
  have h2 := sqrt_two_lt_two
  have hs0 : (0:ℝ) < Real.sqrt 2 := lt_trans one_pos h1
  have hk : 0 < r * (Real.sqrt 2 / 2) := by positivity
  have hkr : r * (Real.sqrt 2 / 2) < r := by nlinarith
  rw [outline_shapes_eval w h r hr.ne']
  intro sh hsh
  simp only [List.filter, Shape.isArc, List.mem_cons, List.not_mem_nil, or_false] at hsh
  rcases hsh with rfl | rfl | rfl | rfl <;>
    refine ⟨_, _, _, rfl,
      pair_ne_of_fst (by intro he; nlinarith),
      pair_ne_of_fst (by intro he; nlinarith),
      pair_ne_of_fst (by intro he; nlinarith),
      by simp only [collinear3]; intro hC; nlinarith [mul_pos hr hr]⟩

theorem corner_arc_points_determine_witness :
    (0:ℝ) < 2 ∧
    ∀ sh ∈ (outline_shapes 10 8 2).filter Shape.isArc,
      ∃ p q s, sh = Shape.arc p q s ∧ p ≠ q ∧ p ≠ s ∧ q ≠ s ∧ ¬ collinear3 p q s :=
  ⟨by norm_num, corner_arc_points_determine 10 8 2 (by norm_num)⟩

theorem outlineSegEnds_eval (w h r : ℝ) (hr : r ≠ 0) :
    outlineSegEnds w h r =
      [(25 + r, 25), (25 + w - r, 25), (25 + w, 25 + r), (25 + w, 25 + h - r),
       (25 + w - r, 25 + h), (25 + r, 25 + h), (25, 25 + h - r), (25, 25 + r)] := by
  rw [outlineSegEnds, outline_shapes_eval w h r hr]
  simp [shapeEnds, segEnds, arcEnds]

theorem outlineArcEnds_eval (w h r : ℝ) (hr : r ≠ 0) :
    outlineArcEnds w h r =
      [(25 + r, 25), (25, 25 + r), (25 + w, 25 + r), (25 + w - r, 25),
       (25 + w - r, 25 + h), (25 + w, 25 + h - r), (25, 25 + h - r), (25 + r, 25 + h)] := by
  rw [outlineArcEnds, outline_shapes_eval w h r hr]
  simp [shapeEnds, segEnds, arcEnds]

/-- Claim C10 as stated is false at `r = min(w,h)/2`: for `w = h = 10`,
`r = 5` (so `0 < r ≤ min(w,h)/2` holds) the edges degenerate to points and
each edge endpoint coincides with two arc endpoints, not exactly one — the
arc-endpoint list has repeated entries. -/
theorem outline_closed_counterexample :
    (0:ℝ) < 5 ∧ (5:ℝ) ≤ min 10 10 / 2 ∧
    ¬ ((∀ p ∈ outlineArcEnds 10 10 5, p ∈ outlineSegEnds 10 10 5) ∧
       (∀ p ∈ outlineSegEnds 10 10 5, p ∈ outlineArcEnds 10 10 5) ∧
       (outlineArcEnds 10 10 5).Pairwise (fun p q => p ≠ q)) := by
  refine ⟨by norm_num, by norm_num, ?_⟩
  rintro ⟨-, -, hpw⟩
  rw [outlineArcEnds_eval 10 10 5 (by norm_num)] at hpw
  norm_num [List.pairwise_cons] at hpw

/-- Claim C10, amended: for `0 < r ≤ min(w,h)/2` every corner arc's start
and end point coincides with an endpoint of the straight edges, and — when
`r < min(w,h)/2` strictly, which the counterexample shows is needed — every
edge endpoint coincides with an arc endpoint and the eight arc start/end
points are pairwise distinct, so each edge endpoint is shared with exactly
one arc endpoint and the eight shapes close up into a single outline. -/
theorem outline_closed (w h r : ℝ) (hw : 0 < w) (hh : 0 < h) (hr : 0 < r)
    (hr2 : r ≤ min w h / 2) :
    (∀ p ∈ outlineArcEnds w h r, p ∈ outlineSegEnds w h r) ∧
    (r < min w h / 2 →
      (∀ p ∈ outlineSegEnds w h r, p ∈ outlineArcEnds w h r) ∧
      (outlineArcEnds w h r).Pairwise (fun p q => p ≠ q)) := by
  rw [outlineArcEnds_eval w h r hr.ne', outlineSegEnds_eval w h r hr.ne']
  refine ⟨?_, fun hlt => ⟨?_, ?_⟩⟩
  · intro p hp
    simp only [List.mem_cons, List.not_mem_nil, or_false] at hp ⊢
    tauto
  · intro p hp
    simp only [List.mem_cons, List.not_mem_nil, or_false] at hp ⊢
    tauto
  · have hrw : r < w / 2 := by
      have := min_le_left w h
      linarith
    have hrh : r < h / 2 := by
      have := min_le_right w h
      linarith
    simp only [List.pairwise_cons, List.mem_cons, List.not_mem_nil, or_false,
      forall_eq_or_imp, forall_eq, ne_eq, Prod.mk.injEq, not_and, IsEmpty.forall_iff,
      implies_true, and_true, List.Pairwise.nil]
    repeat' apply And.intro
    all_goals intros
    all_goals first
      | exact List.Pairwise.nil
      | linarith

theorem outline_closed_witness :
    (0:ℝ) < 10 ∧ (0:ℝ) < 8 ∧ (0:ℝ) < 2 ∧ (2:ℝ) ≤ min 10 8 / 2 ∧
    ((∀ p ∈ outlineArcEnds 10 8 2, p ∈ outlineSegEnds 10 8 2) ∧
     ((2:ℝ) < min 10 8 / 2 →
       (∀ p ∈ outlineSegEnds 10 8 2, p ∈ outlineArcEnds 10 8 2) ∧
       (outlineArcEnds 10 8 2).Pairwise (fun p q => p ≠ q))) :=
  ⟨by norm_num, by norm_num, by norm_num, by norm_num,
   outline_closed 10 8 2 (by norm_num) (by norm_num) (by norm_num) (by norm_num)⟩

end BoardOutlineGenerator
